import Mathlib

/-!
Verification of the Ilusiona code generator and PNG downloader
(`ilusiona_gen_download.py`).

The development shallowly embeds the script:
* `gs1_mod10_check_digit` mirrors the checksum function, using `Int`
  arithmetic so that Python semantics of `ord(ch) - ord("0")` and `%`
  are preserved for arbitrary characters;
* `genLoop`/`genCodes` mirror the generation loop of `main`, with the
  `secrets`-based ticket draw abstracted as an injected function
  `ticket : Nat → Nat`;
* the filesystem is a map from paths to optional byte lists, and
  `fetchLoop`/`download_png` mirror the fetch-validate-retry logic with
  the HTTP transport abstracted as `transport : Nat → Except String (List Nat)`
  (attempt number to either an error message or the response body);
  `FetchRes.trace` records every intermediate filesystem state, and
  `FetchRes.sleeps` counts the backoff sleeps;
* `runBatch` mirrors the download loop of `main` with its counters.
-/

/-- Decimal digit character, as produced by Python `str` on a value in 0..9. -/
def digitChar (d : Nat) : Char := Char.ofNat (48 + d)

/-- Fuel-indexed decimal rendering of a natural number (most significant
digit first), modelling Python decimal formatting `str(n)`. -/
def natDigitsAux : Nat → Nat → List Char
  | 0, _ => []
  | fuel + 1, n =>
    if n < 10 then [digitChar n]
    else natDigitsAux fuel (n / 10) ++ [digitChar (n % 10)]

/-- Decimal rendering of a natural number, modelling Python `str(n)`. -/
def natDigits (n : Nat) : List Char := natDigitsAux (n + 1) n

/-- Zero-padded decimal rendering, modelling a Python format spec such as
`f"{v:03d}"`: left-pad the decimal digits with zeros up to the width. -/
def padNum (w n : Nat) : String :=
  String.mk (List.replicate (w - (natDigits n).length) '0' ++ natDigits n)

/-- Numeric value of a list of decimal digit characters. -/
def digitsVal (l : List Char) : Nat :=
  l.foldl (fun a c => 10 * a + (c.toNat - 48)) 0

/-- Accumulating loop of `gs1_mod10_check_digit`: the characters are taken
from the rightmost leftward, `weight` alternates 3,1,3,1,…, and each step
adds `(ord ch - ord "0") * weight` to the total, in `Int` like Python. -/
def gs1Loop : List Char → Int → Int → Int
  | [], total, _ => total
  | c :: cs, total, weight =>
    gs1Loop cs (total + ((c.toNat : Int) - 48) * weight)
      (if weight = 3 then 1 else 3)

/-- Embedding of `gs1_mod10_check_digit` from the source: scan
`number_str` from the right with weights 3,1,3,1,… and return
`str((10 - (total % 10)) % 10)`, with Python `%` as `Int.emod`. -/
def gs1_mod10_check_digit (number_str : String) : String :=
  let total := gs1Loop number_str.data.reverse 0 3
  String.mk [digitChar ((10 - total.emod 10).emod 10).toNat]

/-- Spec-side weighted sum, modelled from the words of the specification:
digits are listed from the rightmost position, weights alternate
3,1,3,1,… starting at 3, and `sum = Σ digit_i * weight_i`. -/
def specWeightedSum : List Nat → Nat → Nat
  | [], _ => 0
  | d :: ds, w => d * w + specWeightedSum ds (if w = 3 then 1 else 3)

/-- Spec-side check digit, modelled from the words of the specification:
`(10 - (sum mod 10)) mod 10` over the digits listed from the right. -/
def specCheckDigit (digits : List Nat) : Nat :=
  (10 - specWeightedSum digits 3 % 10) % 10

/-- One code of the generation loop in `main`:
`fixed + serial(3, zero-padded) + tickets(4, zero-padded)` followed by the
check digit of those 13 characters. -/
def mkCode (fixed : String) (serialVal ticketVal : Nat) : String :=
  let base13 := fixed ++ padNum 3 serialVal ++ padNum 4 ticketVal
  base13 ++ gs1_mod10_check_digit base13

/-- The `SystemExit` message of the generation loop for an overflowing
serial value. -/
def rangeErrMsg (v : Nat) : String :=
  "ERROR: la serie se sale de 3 dígitos (última=" ++ String.mk (natDigits v) ++ ")."

/-- Generation loop of `main`, recursing on the number of codes still to
produce; `i` is the current 0-based index. Returns the emitted codes (the
lines written to the output file before any failure) and the fatal error
message, if any. -/
def genLoop (fixed : String) (ticket : Nat → Nat) (startSerial : Nat) :
    Nat → Nat → List String × Option String
  | 0, _ => ([], none)
  | Nat.succ n, i =>
    let serialVal := startSerial + i
    if serialVal > 999 then ([], some (rangeErrMsg serialVal))
    else
      let code := mkCode fixed serialVal (ticket i)
      let r := genLoop fixed ticket startSerial n (i + 1)
      (code :: r.1, r.2)

/-- The generation phase of `main`: `qty` codes starting at `startSerial`,
with the `secrets.randbelow` ticket draw abstracted as `ticket`. -/
def genCodes (fixed : String) (startSerial qty : Nat) (ticket : Nat → Nat) :
    List String × Option String :=
  genLoop fixed ticket startSerial qty 0

/-- A filesystem: each path holds an optional list of bytes. -/
def FS : Type := String → Option (List Nat)

/-- Write a file (create or overwrite). -/
def fsWrite (fs : FS) (p : String) (d : List Nat) : FS :=
  fun q => if q = p then some d else fs q

/-- Remove a file. -/
def fsRemove (fs : FS) (p : String) : FS :=
  fun q => if q = p then none else fs q

/-- `os.replace src dst`: atomically rename `src` over `dst`. -/
def fsReplace (fs : FS) (src dst : String) : FS :=
  fun q => if q = src then none else if q = dst then fs src else fs q

/-- `os.path.exists(p) and os.path.getsize(p) > 0`. -/
def fsExistsNonempty (fs : FS) (p : String) : Bool :=
  match fs p with
  | some d => decide (0 < d.length)
  | none => false

/-- The 8-byte PNG signature `89 50 4E 47 0D 0A 1A 0A`. -/
def pngSig : List Nat := [0x89, 0x50, 0x4E, 0x47, 0x0D, 0x0A, 0x1A, 0x0A]

/-- Embedding of `is_png_file`: read up to 8 bytes of the file at `p` and
compare with the PNG signature; a missing file reads as `False`. -/
def is_png_file (fs : FS) (p : String) : Bool :=
  match fs p with
  | none => false
  | some d => decide (d.take 8 = pngSig)

/-- Result of one `download_png` call: the returned `(ok, msg)` pair, the
final filesystem, the number of transport attempts issued, the number of
backoff sleeps performed, and the list of filesystem states after each
filesystem mutation, in order. -/
structure FetchRes where
  ok : Bool
  msg : String
  fs : FS
  attempts : Nat
  sleeps : Nat
  trace : List FS

/-- The retry loop of `download_png` (`for attempt in range(1, retries + 2)`),
recursing on the number of remaining iterations. `attempt` is the 1-based
attempt counter, `lastErr` the last recorded transport error, `att` and
`slp` the attempts and sleeps so far, `tr` the reversed trace so far. -/
def fetchLoop (code out tmp : String) (retries : Nat)
    (transport : Nat → Except String (List Nat)) :
    Nat → Nat → String → FS → Nat → Nat → List FS → FetchRes
  | 0, _, lastErr, fs, att, slp, tr =>
    ⟨false, "ERROR: fallo descargando " ++ code ++ ". Último error: " ++ lastErr,
      fs, att, slp, tr.reverse⟩
  | Nat.succ rem, attempt, _, fs, att, slp, tr =>
    match transport attempt with
    | Except.ok data =>
      let fs1 := fsWrite fs tmp data
      if is_png_file fs1 tmp then
        let fs2 := fsReplace fs1 tmp out
        ⟨true, "OK: " ++ out, fs2, att + 1, slp, (fs2 :: fs1 :: tr).reverse⟩
      else
        let fs2 := fsRemove fs1 tmp
        ⟨false, "ERROR: descargado pero no parece PNG (quizá HTML). Código=" ++ code,
          fs2, att + 1, slp, (fs2 :: fs1 :: tr).reverse⟩
    | Except.error e =>
      let fs1 := if (fs tmp).isSome then fsRemove fs tmp else fs
      if attempt < retries + 2 then
        fetchLoop code out tmp retries transport rem (attempt + 1) e fs1 (att + 1)
          (slp + 1) (fs1 :: tr)
      else
        fetchLoop code out tmp retries transport rem (attempt + 1) e fs1 (att + 1)
          slp (fs1 :: tr)

/-- Embedding of `download_png`: cache check, then the retry loop with
temp path `out ++ ".tmp"` and `retries + 1` iterations. -/
def download_png (code out : String) (retries : Nat)
    (transport : Nat → Except String (List Nat)) (fs : FS) : FetchRes :=
  if fsExistsNonempty fs out then
    ⟨true, "OK (ya existe): " ++ out, fs, 0, 0, []⟩
  else
    fetchLoop code out (out ++ ".tmp") retries transport (retries + 1) 1 "" fs 0 0 []

/-- Python `str.isdigit` restricted to ASCII: non-empty and every
character a decimal digit. -/
def pyIsDigit (s : String) : Bool :=
  !s.data.isEmpty && s.data.all Char.isDigit

/-- The four counters of the download loop of `main`. -/
structure BatchSummary where
  total : Nat
  ok : Nat
  skip : Nat
  fail : Nat
deriving DecidableEq, Repr

/-- The download loop of `main`: one `download_png` per code against
`"./<code>.png"` with `retries = 2`, threading the filesystem, counting
`total`, `ok`, `skip`, `fail`. The transport is per code. -/
def runBatch (transport : String → Nat → Except String (List Nat)) :
    List String → FS → BatchSummary × FS
  | [], fs => (⟨0, 0, 0, 0⟩, fs)
  | code :: rest, fs =>
    if pyIsDigit code then
      let r := download_png code ("./" ++ code ++ ".png") 2 (transport code) fs
      let s := runBatch transport rest r.fs
      if r.ok then (⟨s.1.total + 1, s.1.ok + 1, s.1.skip, s.1.fail⟩, s.2)
      else (⟨s.1.total + 1, s.1.ok, s.1.skip, s.1.fail + 1⟩, s.2)
    else
      let s := runBatch transport rest fs
      (⟨s.1.total + 1, s.1.ok, s.1.skip + 1, s.1.fail⟩, s.2)

/-- Destination-visibility invariant: the file at the destination is
either exactly what it was originally, or a complete payload that starts
with the PNG signature. -/
def destInv (orig s : Option (List Nat)) : Prop :=
  s = orig ∨ ∃ d, s = some d ∧ d.take 8 = pngSig

/-- The empty filesystem. -/
def emptyFS : FS := fun _ => none

/-- A filesystem holding one non-empty file at the path "f". -/
def oneFileFS : FS := fun p => if p = "f" then some [1] else none

/-- A filesystem holding one zero-byte file at the path "f". -/
def emptyFileFS : FS := fun p => if p = "f" then some [] else none

/-- A transport stub returning a minimal valid PNG payload (the 8-byte
signature) for every request of every code. -/
def okStubTransport : String → Nat → Except String (List Nat) :=
  fun _ _ => Except.ok pngSig
theorem digitChar_toNat {d : Nat} (h : d < 10) : (digitChar d).toNat = 48 + d := by
  interval_cases d <;> decide

theorem digitChar_isDigit {d : Nat} (h : d < 10) : (digitChar d).isDigit = true := by
  interval_cases d <;> decide

theorem natDigitsAux_all_digit :
    ∀ fuel n c, c ∈ natDigitsAux fuel n → c.isDigit = true := by
  intro fuel
  induction fuel with
  | zero => intro n c hc; simp [natDigitsAux] at hc
  | succ fuel ih =>
    intro n c hc
    rw [natDigitsAux] at hc
    by_cases h : n < 10
    · simp [h] at hc
      subst hc
      exact digitChar_isDigit h
    · simp [h] at hc
      rcases hc with hc | hc
      · exact ih _ _ hc
      · subst hc
        exact digitChar_isDigit (Nat.mod_lt _ (by omega))

theorem natDigits_all_digit {n : Nat} {c : Char} (hc : c ∈ natDigits n) :
    c.isDigit = true :=
  natDigitsAux_all_digit _ _ _ hc

theorem natDigitsAux_length :
    ∀ fuel k n, n < 10 ^ (k + 1) → (natDigitsAux fuel n).length ≤ k + 1 := by
  intro fuel
  induction fuel with
  | zero => intro k n _; simp [natDigitsAux]
  | succ fuel ih =>
    intro k n hn
    rw [natDigitsAux]
    by_cases h : n < 10
    · simp [h]
    · simp only [h, if_false, List.length_append, List.length_singleton]
      match k with
      | 0 => simp [pow_succ, pow_zero] at hn; omega
      | k + 1 =>
        have hdiv : n / 10 < 10 ^ (k + 1) := by
          rw [Nat.div_lt_iff_lt_mul (by omega : 0 < 10)]
          calc n < 10 ^ (k + 1 + 1) := hn
            _ = 10 ^ (k + 1) * 10 := by ring
        have := ih k (n / 10) hdiv
        omega

theorem natDigits_length {k n : Nat} (hn : n < 10 ^ (k + 1)) :
    (natDigits n).length ≤ k + 1 :=
  natDigitsAux_length _ _ _ hn

theorem natDigitsAux_foldl :
    ∀ fuel n a, n < fuel →
      List.foldl (fun a c => 10 * a + (c.toNat - 48)) a (natDigitsAux fuel n) =
        a * 10 ^ (natDigitsAux fuel n).length + n := by
  intro fuel
  induction fuel with
  | zero => intro n a h; omega
  | succ fuel ih =>
    intro n a hn
    rw [natDigitsAux]
    by_cases h : n < 10
    · simp only [h, if_true, List.foldl_cons, List.foldl_nil, List.length_singleton]
      rw [digitChar_toNat h]
      ring_nf
      omega
    · simp only [h, if_false, List.foldl_append, List.foldl_cons, List.foldl_nil,
        List.length_append, List.length_singleton]
      have hdiv : n / 10 < fuel := by
        have h1 : n / 10 < n := Nat.div_lt_self (by omega) (by omega)
        omega
      rw [ih (n / 10) a hdiv]
      rw [digitChar_toNat (Nat.mod_lt _ (by omega))]
      have hdm : 10 * (n / 10) + n % 10 = n := by omega
      have hp : 10 ^ ((natDigitsAux fuel (n / 10)).length + 1) =
          10 ^ (natDigitsAux fuel (n / 10)).length * 10 := by ring
      rw [hp]
      ring_nf
      omega

theorem digitsVal_natDigits (n : Nat) : digitsVal (natDigits n) = n := by
  unfold digitsVal natDigits
  rw [natDigitsAux_foldl (n + 1) n 0 (by omega)]
  simp

theorem foldl_zeros (k : Nat) :
    List.foldl (fun a c => 10 * a + (c.toNat - 48)) 0 (List.replicate k '0') = 0 := by
  induction k with
  | zero => rfl
  | succ k ih => rw [List.replicate_succ]; simpa using ih

theorem digitsVal_padNum (w n : Nat) : digitsVal (padNum w n).data = n := by
  show digitsVal (List.replicate (w - (natDigits n).length) '0' ++ natDigits n) = n
  unfold digitsVal
  rw [List.foldl_append, foldl_zeros]
  exact digitsVal_natDigits n

theorem padNum_length {w n : Nat} (h : (natDigits n).length ≤ w) :
    (padNum w n).length = w := by
  show (List.replicate (w - (natDigits n).length) '0' ++ natDigits n).length = w
  rw [List.length_append, List.length_replicate]
  omega

theorem padNum_all_digit {w n : Nat} {c : Char} (hc : c ∈ (padNum w n).data) :
    c.isDigit = true := by
  have hc' : c ∈ List.replicate (w - (natDigits n).length) '0' ++ natDigits n := hc
  rcases List.mem_append.mp hc' with h | h
  · rw [List.eq_of_mem_replicate h]; decide
  · exact natDigits_all_digit h

theorem int_emod_eq_mod (x y : Int) : x.emod y = x % y := rfl

theorem char_isDigit_bounds {c : Char} (h : c.isDigit = true) :
    48 ≤ c.toNat ∧ c.toNat ≤ 57 := by
  simp [Char.isDigit, Char.le_def] at h
  constructor <;> [exact h.1; exact h.2]

theorem int_check_digit_eq (S : Nat) :
    ((10 - (S : Int).emod 10).emod 10).toNat = (10 - S % 10) % 10 := by
  have h1 : (S : Int).emod 10 = ((S % 10 : Nat) : Int) := by push_cast; rfl
  have h2 : S % 10 < 10 := Nat.mod_lt _ (by omega)
  rw [h1, int_emod_eq_mod]
  generalize S % 10 = r at *
  omega

theorem gs1_digit_out (s : String) :
    ∃ d : Nat, d < 10 ∧ gs1_mod10_check_digit s = String.mk [digitChar d] := by
  refine ⟨((10 - (gs1Loop s.data.reverse 0 3).emod 10).emod 10).toNat, ?_, rfl⟩
  have h1 : 0 ≤ (10 - (gs1Loop s.data.reverse 0 3).emod 10).emod 10 :=
    Int.emod_nonneg _ (by norm_num)
  have h2 : (10 - (gs1Loop s.data.reverse 0 3).emod 10).emod 10 < 10 :=
    Int.emod_lt_of_pos _ (by norm_num)
  omega

theorem gs1Loop_spec :
    ∀ (l : List Char), (∀ c ∈ l, c.isDigit = true) → ∀ (w : Nat), w = 3 ∨ w = 1 →
      ∀ total : Int,
        gs1Loop l total (w : Int) =
          total + (specWeightedSum (l.map (fun c => c.toNat - 48)) w : Int) := by
  intro l
  induction l with
  | nil => intro _ w _ total; simp [gs1Loop, specWeightedSum]
  | cons c cs ih =>
    intro hd w hw total
    have hc := char_isDigit_bounds (hd c (by simp))
    have hcs : ∀ x ∈ cs, x.isDigit = true := fun x hx => hd x (by simp [hx])
    rcases hw with hw | hw <;> subst hw
    · have h1 : gs1Loop (c :: cs) total ((3 : Nat) : Int) =
          gs1Loop cs (total + ((c.toNat : Int) - 48) * 3) ((1 : Nat) : Int) := by
        simp [gs1Loop]
      rw [h1, ih hcs 1 (Or.inr rfl)]
      simp only [List.map_cons, specWeightedSum, if_pos rfl]
      push_cast [Nat.cast_sub hc.1]
      ring
    · have h1 : gs1Loop (c :: cs) total ((1 : Nat) : Int) =
          gs1Loop cs (total + ((c.toNat : Int) - 48) * 1) ((3 : Nat) : Int) := by
        simp [gs1Loop]
      rw [h1, ih hcs 3 (Or.inl rfl)]
      have : (if (1 : Nat) = 3 then (1 : Nat) else 3) = 3 := rfl
      simp only [List.map_cons, specWeightedSum, this]
      push_cast [Nat.cast_sub hc.1]
      ring

theorem gs1_eq_spec (s : String) (hd : ∀ c ∈ s.data, c.isDigit = true) :
    gs1_mod10_check_digit s =
      String.mk [digitChar
        (specCheckDigit (s.data.reverse.map (fun c => c.toNat - 48)))] := by
  have hrev : ∀ c ∈ s.data.reverse, c.isDigit = true := fun c hc =>
    hd c (List.mem_reverse.mp hc)
  have h := gs1Loop_spec s.data.reverse hrev 3 (Or.inl rfl) 0
  rw [show ((3 : Nat) : Int) = (3 : Int) from rfl, zero_add] at h
  show String.mk [digitChar
      ((10 - (gs1Loop s.data.reverse 0 3).emod 10).emod 10).toNat] = _
  rw [h, int_check_digit_eq]
  rfl

theorem gs1_length (s : String) : (gs1_mod10_check_digit s).length = 1 := by
  obtain ⟨d, _, h⟩ := gs1_digit_out s
  rw [h]
  rfl

theorem mkCode_data (f : String) (s t : Nat) :
    (mkCode f s t).data =
      f.data ++ ((padNum 3 s).data ++ ((padNum 4 t).data ++
        (gs1_mod10_check_digit (f ++ padNum 3 s ++ padNum 4 t)).data)) := by
  simp [mkCode, String.data_append]

theorem padNum3_length {s : Nat} (hs : s ≤ 999) : (padNum 3 s).length = 3 := by
  have : s < 10 ^ (2 + 1) := by norm_num; omega
  exact padNum_length (natDigits_length this)

theorem padNum4_length {t : Nat} (ht : t ≤ 9999) : (padNum 4 t).length = 4 := by
  have : t < 10 ^ (3 + 1) := by norm_num; omega
  exact padNum_length (natDigits_length this)

theorem mkCode_length {f : String} {s t : Nat} (hf : f.length = 6)
    (hs : s ≤ 999) (ht : t ≤ 9999) : (mkCode f s t).length = 14 := by
  have hd := mkCode_data f s t
  have : (mkCode f s t).length = (mkCode f s t).data.length := rfl
  rw [this, hd]
  simp only [List.length_append]
  have h3 : (padNum 3 s).data.length = 3 := padNum3_length hs
  have h4 : (padNum 4 t).data.length = 4 := padNum4_length ht
  have h1 : (gs1_mod10_check_digit (f ++ padNum 3 s ++ padNum 4 t)).data.length = 1 :=
    gs1_length (f ++ padNum 3 s ++ padNum 4 t)
  have h6 : f.data.length = 6 := hf
  omega

theorem mkCode_all_digit {f : String} {s t : Nat}
    (hf : ∀ c ∈ f.data, c.isDigit = true) :
    ∀ c ∈ (mkCode f s t).data, c.isDigit = true := by
  intro c hc
  rw [mkCode_data] at hc
  rcases List.mem_append.mp hc with h | h
  · exact hf c h
  rcases List.mem_append.mp h with h | h
  · exact padNum_all_digit h
  rcases List.mem_append.mp h with h | h
  · exact padNum_all_digit h
  · obtain ⟨d, hd, hg⟩ := gs1_digit_out (f ++ padNum 3 s ++ padNum 4 t)
    rw [hg] at h
    simp at h
    subst h
    exact digitChar_isDigit hd

theorem mkCode_serial_slice {f : String} {s t : Nat} (hf : f.length = 6)
    (hs : s ≤ 999) :
    digitsVal (((mkCode f s t).data.drop 6).take 3) = s := by
  rw [mkCode_data]
  have h6 : f.data.length = 6 := hf
  have h3 : (padNum 3 s).data.length = 3 := padNum3_length hs
  rw [List.drop_left' h6, List.take_left' h3]
  exact digitsVal_padNum 3 s

theorem mkCode_pyIsDigit {f : String} {s t : Nat} (hf : f.length = 6)
    (hfd : ∀ c ∈ f.data, c.isDigit = true) (hs : s ≤ 999) (ht : t ≤ 9999) :
    pyIsDigit (mkCode f s t) = true := by
  unfold pyIsDigit
  have hlen : (mkCode f s t).data.length = 14 := mkCode_length hf hs ht
  have hne : (mkCode f s t).data.isEmpty = false := by
    cases h : (mkCode f s t).data with
    | nil => rw [h] at hlen; simp at hlen
    | cons a l => rfl
  rw [hne]
  simp only [Bool.not_false, Bool.true_and]
  rw [List.all_eq_true]
  intro c hc
  exact mkCode_all_digit hfd c hc

theorem mkCode_ne {f : String} {s1 s2 t1 t2 : Nat} (hf : f.length = 6)
    (hs1 : s1 ≤ 999) (hs2 : s2 ≤ 999) (hne : s1 ≠ s2) :
    mkCode f s1 t1 ≠ mkCode f s2 t2 := by
  intro h
  have := congrArg (fun x : String => digitsVal ((x.data.drop 6).take 3)) h
  simp only at this
  rw [mkCode_serial_slice hf hs1, mkCode_serial_slice hf hs2] at this
  exact hne this

theorem genLoop_ok (fixed : String) (ticket : Nat → Nat) (startSerial : Nat) :
    ∀ n i, startSerial + i + n ≤ 1000 →
      genLoop fixed ticket startSerial n i =
        ((List.range n).map
            (fun j => mkCode fixed (startSerial + i + j) (ticket (i + j))), none) := by
  intro n
  induction n with
  | zero => intro i _; simp [genLoop]
  | succ n ih =>
    intro i h
    rw [genLoop]
    have hns : ¬ (startSerial + i > 999) := by omega
    simp only [hns, if_false]
    rw [ih (i + 1) (by omega)]
    rw [List.range_succ_eq_map]
    simp only [List.map_cons, List.map_map]
    have hfun : ((fun j => mkCode fixed (startSerial + i + j) (ticket (i + j))) ∘
        (fun j => j + 1)) =
        fun j => mkCode fixed (startSerial + (i + 1) + j) (ticket ((i + 1) + j)) := by
      funext j
      simp only [Function.comp]
      rw [show startSerial + i + (j + 1) = startSerial + (i + 1) + j from by omega,
        show i + (j + 1) = (i + 1) + j from by omega]
    rw [hfun]
    simp

theorem genLoop_overflow (fixed : String) (ticket : Nat → Nat) (startSerial : Nat) :
    ∀ n i, startSerial + i ≤ 1000 → 1000 < startSerial + i + n →
      genLoop fixed ticket startSerial n i =
        ((List.range (1000 - (startSerial + i))).map
            (fun j => mkCode fixed (startSerial + i + j) (ticket (i + j))),
          some (rangeErrMsg 1000)) := by
  intro n
  induction n with
  | zero => intro i h1 h2; omega
  | succ n ih =>
    intro i h1 h2
    rw [genLoop]
    by_cases hcase : startSerial + i > 999
    · have hv : startSerial + i = 1000 := by omega
      simp only [hcase, if_true]
      rw [hv]
      simp
    · simp only [hcase, if_false]
      rw [ih (i + 1) (by omega) (by omega)]
      have hr : 1000 - (startSerial + i) = (1000 - (startSerial + (i + 1))) + 1 := by
        omega
      rw [hr, List.range_succ_eq_map]
      simp only [List.map_cons, List.map_map]
      have hfun : ((fun j => mkCode fixed (startSerial + i + j) (ticket (i + j))) ∘
          (fun j => j + 1)) =
          fun j => mkCode fixed (startSerial + (i + 1) + j) (ticket ((i + 1) + j)) := by
        funext j
        simp only [Function.comp]
        rw [show startSerial + i + (j + 1) = startSerial + (i + 1) + j from by omega,
          show i + (j + 1) = (i + 1) + j from by omega]
      rw [hfun]
      simp

theorem append_tmp_ne (out : String) : out ++ ".tmp" ≠ out := by
  intro h
  have h1 := congrArg String.length h
  rw [String.length_append] at h1
  have h2 : (".tmp" : String).length = 4 := rfl
  omega

theorem path_png_length (c : String) : ("./" ++ c ++ ".png").length = c.length + 6 := by
  rw [String.length_append, String.length_append]
  have h1 : ("./" : String).length = 2 := rfl
  have h2 : (".png" : String).length = 4 := rfl
  omega

theorem path_png_inj {a b : String} (h : "./" ++ a ++ ".png" = "./" ++ b ++ ".png") :
    a = b := by
  have hd := congrArg String.data h
  simp only [String.data_append] at hd
  rw [List.append_assoc, List.append_assoc] at hd
  have h1 := List.append_cancel_left hd
  have h2 := List.append_cancel_right h1
  exact congrArg String.mk h2

theorem fsWrite_self (fs : FS) (p : String) (d : List Nat) :
    fsWrite fs p d p = some d := by simp [fsWrite]

theorem fsWrite_other (fs : FS) (p q : String) (d : List Nat) (h : q ≠ p) :
    fsWrite fs p d q = fs q := by simp [fsWrite, h]

theorem fsRemove_self (fs : FS) (p : String) : fsRemove fs p p = none := by
  simp [fsRemove]

theorem fsRemove_other (fs : FS) (p q : String) (h : q ≠ p) :
    fsRemove fs p q = fs q := by simp [fsRemove, h]

theorem fsReplace_src (fs : FS) (src dst : String) :
    fsReplace fs src dst src = none := by simp [fsReplace]

theorem fsReplace_dst (fs : FS) (src dst : String) (h : dst ≠ src) :
    fsReplace fs src dst dst = fs src := by simp [fsReplace, h]

theorem fsReplace_other (fs : FS) (src dst q : String) (h1 : q ≠ src) (h2 : q ≠ dst) :
    fsReplace fs src dst q = fs q := by simp [fsReplace, h1, h2]

theorem is_png_file_write_self (fs : FS) (p : String) (d : List Nat) :
    is_png_file (fsWrite fs p d) p = decide (d.take 8 = pngSig) := by
  simp [is_png_file, fsWrite]

theorem fetchLoop_destInv (code out tmp : String) (retries : Nat)
    (transport : Nat → Except String (List Nat)) (orig : Option (List Nat))
    (htmp : tmp ≠ out) :
    ∀ fuel attempt lastErr fs att slp tr,
      fs out = orig →
      (∀ t ∈ tr, destInv orig (t out)) →
      (∀ t ∈ (fetchLoop code out tmp retries transport fuel attempt lastErr
          fs att slp tr).trace, destInv orig (t out)) ∧
        destInv orig ((fetchLoop code out tmp retries transport fuel attempt lastErr
          fs att slp tr).fs out) := by
  intro fuel
  induction fuel with
  | zero =>
    intro attempt lastErr fs att slp tr hfs htr
    refine ⟨fun t ht => htr t (List.mem_reverse.mp ht), Or.inl hfs⟩
  | succ rem ih =>
    intro attempt lastErr fs att slp tr hfs htr
    rw [fetchLoop]
    cases hT : transport attempt with
    | ok data =>
      simp only
      by_cases hpng : is_png_file (fsWrite fs tmp data) tmp = true
      · rw [if_pos hpng]
        have hdata : data.take 8 = pngSig := by
          rw [is_png_file_write_self] at hpng
          exact of_decide_eq_true hpng
        have hfs2 : fsReplace (fsWrite fs tmp data) tmp out out = some data := by
          rw [fsReplace_dst _ _ _ (Ne.symm htmp), fsWrite_self]
        have hfs1 : fsWrite fs tmp data out = fs out := fsWrite_other _ _ _ _ (Ne.symm htmp)
        constructor
        · intro t ht
          rw [List.mem_reverse] at ht
          rcases List.mem_cons.mp ht with h | h
          · subst h; exact Or.inr ⟨data, hfs2, hdata⟩
          rcases List.mem_cons.mp h with h | h
          · subst h; exact Or.inl (hfs1.trans hfs)
          · exact htr t h
        · exact Or.inr ⟨data, hfs2, hdata⟩
      · rw [if_neg hpng]
        have hfs2 : fsRemove (fsWrite fs tmp data) tmp out = fs out := by
          rw [fsRemove_other _ _ _ (Ne.symm htmp), fsWrite_other _ _ _ _ (Ne.symm htmp)]
        constructor
        · intro t ht
          rw [List.mem_reverse] at ht
          rcases List.mem_cons.mp ht with h | h
          · subst h; exact Or.inl (hfs2.trans hfs)
          rcases List.mem_cons.mp h with h | h
          · subst h; exact Or.inl ((fsWrite_other _ _ _ _ (Ne.symm htmp)).trans hfs)
          · exact htr t h
        · exact Or.inl (hfs2.trans hfs)
    | error e =>
      simp only
      have hfs1 : (if (fs tmp).isSome then fsRemove fs tmp else fs) out = fs out := by
        by_cases hex : (fs tmp).isSome = true
        · rw [if_pos hex]
          exact fsRemove_other _ _ _ (Ne.symm htmp)
        · rw [if_neg hex]
      have htr1 : ∀ t ∈ ((if (fs tmp).isSome then fsRemove fs tmp else fs) :: tr),
          destInv orig (t out) := by
        intro t ht
        rcases List.mem_cons.mp ht with h | h
        · subst h; exact Or.inl (hfs1.trans hfs)
        · exact htr t h
      by_cases hlt : attempt < retries + 2
      · rw [if_pos hlt]
        exact ih (attempt + 1) e _ (att + 1) (slp + 1) _ (hfs1.trans hfs) htr1
      · rw [if_neg hlt]
        exact ih (attempt + 1) e _ (att + 1) slp _ (hfs1.trans hfs) htr1

theorem download_png_cached (code out : String) (retries : Nat)
    (transport : Nat → Except String (List Nat)) (fs0 : FS) (data : List Nat)
    (hf : fs0 out = some data) (hd : data ≠ []) :
    download_png code out retries transport fs0 =
      ⟨true, "OK (ya existe): " ++ out, fs0, 0, 0, []⟩ := by
  unfold download_png
  have hca : fsExistsNonempty fs0 out = true := by
    unfold fsExistsNonempty
    rw [hf]
    exact decide_eq_true (List.length_pos.mpr hd)
  rw [if_pos hca]

theorem download_png_first_ok (code out : String) (retries : Nat)
    (transport : Nat → Except String (List Nat)) (fs0 : FS) (data : List Nat)
    (hca : fsExistsNonempty fs0 out = false)
    (ht : transport 1 = Except.ok data)
    (hp : data.take 8 = pngSig) :
    download_png code out retries transport fs0 =
      ⟨true, "OK: " ++ out,
        fsReplace (fsWrite fs0 (out ++ ".tmp") data) (out ++ ".tmp") out, 1, 0,
        [fsWrite fs0 (out ++ ".tmp") data,
          fsReplace (fsWrite fs0 (out ++ ".tmp") data) (out ++ ".tmp") out]⟩ := by
  unfold download_png
  rw [if_neg (by rw [hca]; exact Bool.false_ne_true)]
  show fetchLoop code out (out ++ ".tmp") retries transport (Nat.succ retries) 1 "" fs0 0 0 [] = _
  rw [fetchLoop, ht]
  have hpng : is_png_file (fsWrite fs0 (out ++ ".tmp") data) (out ++ ".tmp") = true := by
    rw [is_png_file_write_self]
    exact decide_eq_true hp
  simp only [hpng, if_pos]
  rfl

theorem download_png_first_nonpng (code out : String) (retries : Nat)
    (transport : Nat → Except String (List Nat)) (fs0 : FS) (data : List Nat)
    (hca : fsExistsNonempty fs0 out = false)
    (ht : transport 1 = Except.ok data)
    (hp : data.take 8 ≠ pngSig) :
    download_png code out retries transport fs0 =
      ⟨false, "ERROR: descargado pero no parece PNG (quizá HTML). Código=" ++ code,
        fsRemove (fsWrite fs0 (out ++ ".tmp") data) (out ++ ".tmp"), 1, 0,
        [fsWrite fs0 (out ++ ".tmp") data,
          fsRemove (fsWrite fs0 (out ++ ".tmp") data) (out ++ ".tmp")]⟩ := by
  unfold download_png
  rw [if_neg (by rw [hca]; exact Bool.false_ne_true)]
  show fetchLoop code out (out ++ ".tmp") retries transport (Nat.succ retries) 1 "" fs0 0 0 [] = _
  rw [fetchLoop, ht]
  have hpng : ¬ is_png_file (fsWrite fs0 (out ++ ".tmp") data) (out ++ ".tmp") = true := by
    rw [is_png_file_write_self]
    simp [hp]
  simp only
  rw [if_neg hpng]
  rfl

theorem runBatch_counts (transport : String → Nat → Except String (List Nat)) :
    ∀ (codes : List String) (fs : FS),
      (runBatch transport codes fs).1.total = codes.length ∧
      (runBatch transport codes fs).1.ok + (runBatch transport codes fs).1.skip +
          (runBatch transport codes fs).1.fail = codes.length ∧
      (runBatch transport codes fs).1.skip =
        codes.countP (fun c => !pyIsDigit c) := by
  intro codes
  induction codes with
  | nil => intro fs; simp [runBatch]
  | cons code rest ih =>
    intro fs
    rw [runBatch]
    by_cases hpd : pyIsDigit code = true
    · rw [if_pos hpd]
      have hstep := ih (download_png code ("./" ++ code ++ ".png") 2 (transport code) fs).fs
      by_cases hok : (download_png code ("./" ++ code ++ ".png") 2 (transport code) fs).ok = true
      · rw [if_pos hok]
        simp only [List.length_cons, List.countP_cons, hpd]
        refine ⟨by omega, by omega, ?_⟩
        simp only [Bool.not_true, Bool.false_eq_true, if_false]
        omega
      · rw [if_neg hok]
        simp only [List.length_cons, List.countP_cons, hpd]
        refine ⟨by omega, by omega, ?_⟩
        simp only [Bool.not_true, Bool.false_eq_true, if_false]
        omega
    · rw [if_neg hpd]
      have hstep := ih fs
      have hpd' : pyIsDigit code = false := by
        cases h : pyIsDigit code
        · rfl
        · exact absurd h hpd
      simp only [List.length_cons, List.countP_cons, hpd', Bool.not_false,
        eq_self_iff_true, if_true]
      refine ⟨by omega, by omega, by omega⟩

/-- C1: for every non-empty string of ASCII digits, `gs1_mod10_check_digit`
returns the GS1 Mod-10 check digit obtained by scanning the digits from the
rightmost character leftward with alternating weights 3,1,3,1,… starting at 3,
accumulating the weighted sum, and returning `(10 - (sum mod 10)) mod 10`;
in particular, input "1234561010500" gives check digit "0" and full code
"12345610105000". -/
theorem gs1_check_digit_matches_spec :
    (∀ s : String, s.data ≠ [] → (∀ c ∈ s.data, c.isDigit = true) →
        gs1_mod10_check_digit s =
          String.mk [digitChar
            (specCheckDigit (s.data.reverse.map (fun c => c.toNat - 48)))]) ∧
    gs1_mod10_check_digit "1234561010500" = "0" ∧
    "1234561010500" ++ gs1_mod10_check_digit "1234561010500" = "12345610105000" := by
  refine ⟨fun s _ hd => gs1_eq_spec s hd, by decide, by decide⟩

/-- Witness for C1 at the concrete input "1234561010500". -/
theorem gs1_check_digit_matches_spec_witness :
    gs1_mod10_check_digit "1234561010500" =
      String.mk [digitChar
        (specCheckDigit
          (("1234561010500" : String).data.reverse.map (fun c => c.toNat - 48)))] :=
  gs1_check_digit_matches_spec.1 "1234561010500" (by decide) (by decide)

/-- C3 counterexample: `gs1_mod10_check_digit` does not signal an
input-validation error on the empty string or on a non-digit string; it
returns the one-digit string "0" for both. -/
theorem gs1_no_validation_counterexample :
    gs1_mod10_check_digit "" = "0" ∧ gs1_mod10_check_digit "abc" = "0" ∧
    ("0" : String).length = 1 := by
  refine ⟨by decide, by decide, rfl⟩

/-- C3 amended: `gs1_mod10_check_digit` expects a non-empty string of ASCII
digits but does not enforce this: for every input string, including the empty
string and strings containing non-digit characters, it returns a one-character
ASCII-digit string instead of signalling an input-validation error. -/
theorem gs1_no_input_validation (s : String) :
    ∃ d : Char, gs1_mod10_check_digit s = String.mk [d] ∧
      48 ≤ d.toNat ∧ d.toNat ≤ 57 := by
  obtain ⟨d, hd, h⟩ := gs1_digit_out s
  refine ⟨digitChar d, h, ?_, ?_⟩ <;> rw [digitChar_toNat hd] <;> omega

/-- C10: for every input string whatsoever, `gs1_mod10_check_digit`
terminates with a string of exactly one ASCII digit; the empty string yields
"0". -/
theorem gs1_always_single_digit :
    (∀ s : String, (gs1_mod10_check_digit s).length = 1 ∧
        ∀ c ∈ (gs1_mod10_check_digit s).data, c.isDigit = true) ∧
    gs1_mod10_check_digit "" = "0" := by
  refine ⟨fun s => ?_, by decide⟩
  obtain ⟨d, hd, h⟩ := gs1_digit_out s
  rw [h]
  refine ⟨rfl, fun c hc => ?_⟩
  have : c = digitChar d := by simpa using hc
  subst this
  exact digitChar_isDigit hd

/-- Witness for C10 at the concrete input "": the result is one character
long and that character is a digit. -/
theorem gs1_always_single_digit_witness :
    (gs1_mod10_check_digit "").length = 1 ∧
      ∀ c ∈ (gs1_mod10_check_digit "").data, c.isDigit = true :=
  gs1_always_single_digit.1 ""

/-- C2 (divergence witness for the retry loop): with the default attempt
budget of 3 (`retries = 2`) and a transport that fails every attempt with the
attempt number as message, `download_png` issues exactly 3 attempts and
returns failure carrying the last (third) transport error, but it performs 3
backoff sleeps, not 2: the guard `attempt < (retries + 2)` in the source is
true for every attempt 1..3, so the code also sleeps after the final failed
attempt, while the claim allows a sleep only if attempts remain. -/
theorem download_png_retry_exhaustion_eval :
    (download_png "c" "f" 2 (fun n => Except.error (String.mk (natDigits n)))
        emptyFS).ok = false ∧
    (download_png "c" "f" 2 (fun n => Except.error (String.mk (natDigits n)))
        emptyFS).attempts = 3 ∧
    (download_png "c" "f" 2 (fun n => Except.error (String.mk (natDigits n)))
        emptyFS).sleeps = 3 ∧
    (download_png "c" "f" 2 (fun n => Except.error (String.mk (natDigits n)))
        emptyFS).msg = "ERROR: fallo descargando c. Último error: 3" := by
  refine ⟨by decide, by decide, by decide, by decide⟩

/-- C6: if a file already exists at the destination with size > 0,
`download_png` returns success immediately with the cached-file message,
issues zero transport attempts and zero sleeps, and leaves the filesystem
(in particular the existing file) unchanged, whatever its content. -/
theorem download_png_cache_hit (code out : String) (retries : Nat)
    (transport : Nat → Except String (List Nat)) (fs0 : FS) (data : List Nat)
    (hf : fs0 out = some data) (hd : data ≠ []) :
    (download_png code out retries transport fs0).ok = true ∧
    (download_png code out retries transport fs0).msg = "OK (ya existe): " ++ out ∧
    (download_png code out retries transport fs0).attempts = 0 ∧
    (download_png code out retries transport fs0).sleeps = 0 ∧
    (download_png code out retries transport fs0).fs = fs0 ∧
    (download_png code out retries transport fs0).trace = [] := by
  rw [download_png_cached code out retries transport fs0 data hf hd]
  exact ⟨rfl, rfl, rfl, rfl, rfl, rfl⟩

/-- Witness for C6: a pre-existing one-byte file at "f" short-circuits the
fetch with zero attempts even though the transport would always fail. -/
theorem download_png_cache_hit_witness :
    (download_png "c" "f" 2 (fun _ => Except.error "e") oneFileFS).attempts = 0 ∧
    (download_png "c" "f" 2 (fun _ => Except.error "e") oneFileFS).ok = true :=
  ⟨(download_png_cache_hit "c" "f" 2 (fun _ => Except.error "e") oneFileFS [1]
      (by decide) (by decide)).2.2.1,
    (download_png_cache_hit "c" "f" 2 (fun _ => Except.error "e") oneFileFS [1]
      (by decide) (by decide)).1⟩

/-- C7 counterexample: with a zero-byte file already present at the
destination "f" (so the cache check does not fire) and a transport returning
non-PNG bytes, `download_png` fails after exactly one attempt and removes the
temp file, but the destination file still exists afterwards — contradicting
the claim that afterwards neither the temp file nor the destination file
exists. -/
theorem nonpng_keeps_preexisting_destination :
    (download_png "c" "f" 2 (fun _ => Except.ok [1, 2, 3]) emptyFileFS).ok = false ∧
    (download_png "c" "f" 2 (fun _ => Except.ok [1, 2, 3]) emptyFileFS).attempts = 1 ∧
    (download_png "c" "f" 2 (fun _ => Except.ok [1, 2, 3]) emptyFileFS).fs "f.tmp" = none ∧
    ((download_png "c" "f" 2 (fun _ => Except.ok [1, 2, 3]) emptyFileFS).fs "f").isSome
      = true := by
  refine ⟨by decide, by decide, by decide, by decide⟩

/-- C7 amended: if the first attempt's transport succeeds but the bytes do
not begin with the 8-byte PNG signature, `download_png` deletes the temp file
and returns a failed outcome immediately after exactly one attempt with no
backoff — content-validation failure is never retried — and afterwards the
temp file does not exist and the destination path holds exactly what it held
before the call (in particular, if it was absent it is still absent). -/
theorem nonpng_fails_once_no_retry (code out : String) (retries : Nat)
    (transport : Nat → Except String (List Nat)) (fs0 : FS) (data : List Nat)
    (hca : fsExistsNonempty fs0 out = false)
    (ht : transport 1 = Except.ok data)
    (hp : data.take 8 ≠ pngSig) :
    (download_png code out retries transport fs0).ok = false ∧
    (download_png code out retries transport fs0).attempts = 1 ∧
    (download_png code out retries transport fs0).sleeps = 0 ∧
    (download_png code out retries transport fs0).fs (out ++ ".tmp") = none ∧
    (download_png code out retries transport fs0).fs out = fs0 out ∧
    (download_png code out retries transport fs0).msg =
      "ERROR: descargado pero no parece PNG (quizá HTML). Código=" ++ code := by
  rw [download_png_first_nonpng code out retries transport fs0 data hca ht hp]
  refine ⟨rfl, rfl, rfl, fsRemove_self _ _, ?_, rfl⟩
  show fsRemove (fsWrite fs0 (out ++ ".tmp") data) (out ++ ".tmp") out = fs0 out
  rw [fsRemove_other _ _ _ (Ne.symm (append_tmp_ne out)),
    fsWrite_other _ _ _ _ (Ne.symm (append_tmp_ne out))]

/-- Witness for the amended C7: an absent destination, a transport returning
the non-PNG payload `[1, 2, 3]` on attempt 1. -/
theorem nonpng_fails_once_no_retry_witness :
    (download_png "c" "f" 2 (fun _ => Except.ok [1, 2, 3]) emptyFS).ok = false ∧
    (download_png "c" "f" 2 (fun _ => Except.ok [1, 2, 3]) emptyFS).attempts = 1 ∧
    (download_png "c" "f" 2 (fun _ => Except.ok [1, 2, 3]) emptyFS).fs "f" = emptyFS "f" :=
  ⟨(nonpng_fails_once_no_retry "c" "f" 2 (fun _ => Except.ok [1, 2, 3]) emptyFS
      [1, 2, 3] (by decide) rfl (by decide)).1,
    (nonpng_fails_once_no_retry "c" "f" 2 (fun _ => Except.ok [1, 2, 3]) emptyFS
      [1, 2, 3] (by decide) rfl (by decide)).2.1,
    (nonpng_fails_once_no_retry "c" "f" 2 (fun _ => Except.ok [1, 2, 3]) emptyFS
      [1, 2, 3] (by decide) rfl (by decide)).2.2.2.2.1⟩

/-- C8: `download_png` never writes directly to the destination path: in
every intermediate filesystem state of the call (each element of the trace)
and in the final state, the destination holds either exactly its original
content (possibly absent) or a complete payload that begins with the 8-byte
PNG signature — never a partial or non-PNG artefact of the fetcher. -/
theorem staged_writes_only (code out : String) (retries : Nat)
    (transport : Nat → Except String (List Nat)) (fs0 : FS) (s : FS)
    (hs : s ∈ (download_png code out retries transport fs0).trace ∨
      s = (download_png code out retries transport fs0).fs) :
    destInv (fs0 out) (s out) := by
  unfold download_png at hs
  by_cases hca : fsExistsNonempty fs0 out = true
  · rw [if_pos hca] at hs
    rcases hs with h | h
    · simp at h
    · subst h; exact Or.inl rfl
  · rw [if_neg hca] at hs
    have hres := fetchLoop_destInv code out (out ++ ".tmp") retries transport (fs0 out)
      (append_tmp_ne out) (retries + 1) 1 "" fs0 0 0 [] rfl
      (by intro t ht; simp at ht)
    rcases hs with h | h
    · exact hres.1 s h
    · rw [h]; exact hres.2

/-- Witness for C8: the final filesystem of a successful fetch into an empty
filesystem satisfies the destination invariant. -/
theorem staged_writes_only_witness :
    destInv (emptyFS "f")
      ((download_png "c" "f" 2 (fun _ => Except.ok pngSig) emptyFS).fs "f") :=
  staged_writes_only "c" "f" 2 (fun _ => Except.ok pngSig) emptyFS
    (download_png "c" "f" 2 (fun _ => Except.ok pngSig) emptyFS).fs (Or.inr rfl)

/-- C4: for every 6-digit `fixedPart`, every `startSerial` and `count ≥ 1`
with `startSerial + count - 1 ≤ 999`, and every ticket draw within
[116, 951], the generation loop emits exactly `count` codes with no error;
the i-th code is exactly 14 ASCII digits in the canonical form
`fixedPart(6) + serial(3, zero-padded) + ticket(4, zero-padded) +
checkDigit(1)`, and its serial portion (characters 6..8) parses to
`startSerial + i`, so the serial portions are strictly increasing. -/
theorem generation_emits_canonical_codes (fixed : String) (startSerial count : Nat)
    (ticket : Nat → Nat) (hfl : fixed.length = 6)
    (hfd : ∀ c ∈ fixed.data, c.isDigit = true) (hc : 1 ≤ count)
    (hrange : startSerial + count - 1 ≤ 999)
    (htick : ∀ i, 116 ≤ ticket i ∧ ticket i ≤ 951) :
    (genCodes fixed startSerial count ticket).2 = none ∧
    (genCodes fixed startSerial count ticket).1.length = count ∧
    ∀ i (hi : i < (genCodes fixed startSerial count ticket).1.length),
      ((genCodes fixed startSerial count ticket).1[i].length = 14 ∧
        (∀ c ∈ (genCodes fixed startSerial count ticket).1[i].data,
          c.isDigit = true)) ∧
      (genCodes fixed startSerial count ticket).1[i] =
        fixed ++ padNum 3 (startSerial + i) ++ padNum 4 (ticket i) ++
          gs1_mod10_check_digit
            (fixed ++ padNum 3 (startSerial + i) ++ padNum 4 (ticket i)) ∧
      digitsVal
          (((genCodes fixed startSerial count ticket).1[i].data.drop 6).take 3) =
        startSerial + i := by
  have hgen : genCodes fixed startSerial count ticket =
      ((List.range count).map (fun j => mkCode fixed (startSerial + j) (ticket j)),
        none) := by
    unfold genCodes
    have h := genLoop_ok fixed ticket startSerial count 0 (by omega)
    simpa using h
  refine ⟨by rw [hgen], by rw [hgen]; simp, ?_⟩
  intro i hi
  have hlen : (genCodes fixed startSerial count ticket).1.length = count := by
    rw [hgen]; simp
  have hic : i < count := by omega
  have hget : (genCodes fixed startSerial count ticket).1[i] =
      mkCode fixed (startSerial + i) (ticket i) := by
    simp only [hgen]
    rw [List.getElem_map, List.getElem_range]
  have hsb : startSerial + i ≤ 999 := by omega
  have htb : ticket i ≤ 9999 := by have := (htick i).2; omega
  refine ⟨⟨?_, ?_⟩, ?_, ?_⟩
  · rw [hget]; exact mkCode_length hfl hsb htb
  · rw [hget]; exact mkCode_all_digit hfd
  · rw [hget]; rfl
  · rw [hget]; exact mkCode_serial_slice hfl hsb

/-- Witness for C4: fixed part "123456", start serial 0, one code, constant
ticket 116: generation succeeds and emits one code. -/
theorem generation_emits_canonical_codes_witness :
    (genCodes "123456" 0 1 (fun _ => 116)).2 = none ∧
    (genCodes "123456" 0 1 (fun _ => 116)).1.length = 1 := by
  have h := generation_emits_canonical_codes "123456" 0 1 (fun _ => 116) rfl
    (by decide) (by decide) (by decide)
    (fun i => ⟨(by decide : (116 : Nat) ≤ 116), (by decide : (116 : Nat) ≤ 951)⟩)
  exact ⟨h.1, h.2.1⟩

/-- C5: for every `startSerial ≤ 999` (as validated by the prompt) and
`count ≥ 1` with `startSerial + count - 1 > 999`, generation fails with the
range-exceeded message identifying the offending serial 1000; the codes for
serials `startSerial..999` are all emitted and kept, and no further code —
in particular not the offending one — is produced. -/
theorem generation_range_exceeded (fixed : String) (startSerial count : Nat)
    (ticket : Nat → Nat) (hs : startSerial ≤ 999) (_hc : 1 ≤ count)
    (hover : 999 < startSerial + count - 1) :
    (genCodes fixed startSerial count ticket).2 = some (rangeErrMsg 1000) ∧
    rangeErrMsg 1000 = "ERROR: la serie se sale de 3 dígitos (última=1000)." ∧
    (genCodes fixed startSerial count ticket).1.length = 1000 - startSerial ∧
    (genCodes fixed startSerial count ticket).1 =
      (List.range (1000 - startSerial)).map
        (fun j => mkCode fixed (startSerial + j) (ticket j)) := by
  have hgen : genCodes fixed startSerial count ticket =
      ((List.range (1000 - startSerial)).map
          (fun j => mkCode fixed (startSerial + j) (ticket j)),
        some (rangeErrMsg 1000)) := by
    unfold genCodes
    have h := genLoop_overflow fixed ticket startSerial count 0 (by omega) (by omega)
    simpa using h
  refine ⟨by rw [hgen], by decide, by rw [hgen]; simp, by rw [hgen]⟩

/-- Witness for C5: start serial 999 with two codes requested overflows after
emitting the single code for serial 999. -/
theorem generation_range_exceeded_witness :
    (genCodes "123456" 999 2 (fun _ => 116)).2 = some (rangeErrMsg 1000) ∧
    (genCodes "123456" 999 2 (fun _ => 116)).1.length = 1000 - 999 :=
  ⟨(generation_range_exceeded "123456" 999 2 (fun _ => 116) (by decide) (by decide)
      (by decide)).1,
    (generation_range_exceeded "123456" 999 2 (fun _ => 116) (by decide) (by decide)
      (by decide)).2.2.1⟩

theorem runBatch_two_fresh (c1 c2 : String) (fs0 : FS)
    (hpd1 : pyIsDigit c1 = true) (hpd2 : pyIsDigit c2 = true)
    (h01 : fs0 ("./" ++ c1 ++ ".png") = none)
    (h02 : fs0 ("./" ++ c2 ++ ".png") = none)
    (hne : c1 ≠ c2) (hl1 : c1.length = 14) (hl2 : c2.length = 14) :
    (runBatch okStubTransport [c1, c2] fs0).1 = ⟨2, 2, 0, 0⟩ ∧
    (runBatch okStubTransport [c1, c2] fs0).2 ("./" ++ c1 ++ ".png") = some pngSig ∧
    (runBatch okStubTransport [c1, c2] fs0).2 ("./" ++ c2 ++ ".png") = some pngSig := by
  set out1 := "./" ++ c1 ++ ".png" with hout1def
  set out2 := "./" ++ c2 ++ ".png" with hout2def
  have houtne : out1 ≠ out2 := fun h => hne (path_png_inj h)
  have hplen1 : out1.length = 20 := by rw [hout1def, path_png_length, hl1]
  have hplen2 : out2.length = 20 := by rw [hout2def, path_png_length, hl2]
  have htlen1 : (out1 ++ ".tmp").length = 24 := by
    rw [String.length_append, hplen1]; rfl
  have htlen2 : (out2 ++ ".tmp").length = 24 := by
    rw [String.length_append, hplen2]; rfl
  have hne21 : out2 ≠ out1 ++ ".tmp" := by
    intro h; have := congrArg String.length h; rw [hplen2, htlen1] at this; omega
  have hne12 : out1 ≠ out2 ++ ".tmp" := by
    intro h; have := congrArg String.length h; rw [hplen1, htlen2] at this; omega
  have hca1 : fsExistsNonempty fs0 out1 = false := by
    unfold fsExistsNonempty; rw [h01]
  have hdl1 := download_png_first_ok c1 out1 2 (okStubTransport c1) fs0 pngSig
    hca1 rfl (by decide)
  have hfs1out1 :
      fsReplace (fsWrite fs0 (out1 ++ ".tmp") pngSig) (out1 ++ ".tmp") out1 out1 =
        some pngSig := by
    rw [fsReplace_dst _ _ _ (Ne.symm (append_tmp_ne out1)), fsWrite_self]
  have hfs1out2 :
      fsReplace (fsWrite fs0 (out1 ++ ".tmp") pngSig) (out1 ++ ".tmp") out1 out2 =
        none := by
    rw [fsReplace_other _ _ _ _ hne21 (Ne.symm houtne),
      fsWrite_other _ _ _ _ hne21, h02]
  have hca2 : fsExistsNonempty
      (fsReplace (fsWrite fs0 (out1 ++ ".tmp") pngSig) (out1 ++ ".tmp") out1)
      out2 = false := by
    unfold fsExistsNonempty; rw [hfs1out2]
  have hdl2 := download_png_first_ok c2 out2 2 (okStubTransport c2)
    (fsReplace (fsWrite fs0 (out1 ++ ".tmp") pngSig) (out1 ++ ".tmp") out1) pngSig
    hca2 rfl (by decide)
  have hrb : runBatch okStubTransport [c1, c2] fs0 =
      (⟨2, 2, 0, 0⟩,
        fsReplace
          (fsWrite
            (fsReplace (fsWrite fs0 (out1 ++ ".tmp") pngSig) (out1 ++ ".tmp") out1)
            (out2 ++ ".tmp") pngSig)
          (out2 ++ ".tmp") out2) := by
    rw [runBatch, if_pos hpd1, hdl1]
    dsimp only
    rw [runBatch, if_pos hpd2, hdl2]
    dsimp only
    rw [runBatch]
    rfl
  refine ⟨by rw [hrb], ?_, ?_⟩
  · rw [hrb]
    show fsReplace _ (out2 ++ ".tmp") out2 out1 = some pngSig
    rw [fsReplace_other _ _ _ _ hne12 houtne, fsWrite_other _ _ _ _ hne12]
    exact hfs1out1
  · rw [hrb]
    show fsReplace _ (out2 ++ ".tmp") out2 out2 = some pngSig
    rw [fsReplace_dst _ _ _ (Ne.symm (append_tmp_ne out2)), fsWrite_self]

/-- C9: (general part) for every transport, code list and filesystem, the
batch loop never aborts: `processed` equals the number of codes, each code is
counted exactly once among `ok`, `skipped` and `failed`, and `skipped` counts
exactly the codes that fail the digit-shape check before any fetch.
(end-to-end part) with fixedPart "100000", startSerial 0, quantity 2 and a
transport stub returning a valid PNG for every request, generation succeeds
with 2 codes and the batch summary is processed 2, ok 2, skipped 0, failed 0,
with the downloaded PNG stored at "./<code>.png" for each of the two
generated 14-digit codes. -/
theorem batch_counts_and_end_to_end :
    (∀ (transport : String → Nat → Except String (List Nat)) (codes : List String)
        (fs : FS),
        (runBatch transport codes fs).1.total = codes.length ∧
        (runBatch transport codes fs).1.ok + (runBatch transport codes fs).1.skip +
            (runBatch transport codes fs).1.fail = codes.length ∧
        (runBatch transport codes fs).1.skip =
          codes.countP (fun c => !pyIsDigit c)) ∧
    (∀ ticket : Nat → Nat, (∀ i, 116 ≤ ticket i ∧ ticket i ≤ 951) →
        (genCodes "100000" 0 2 ticket).2 = none ∧
        (genCodes "100000" 0 2 ticket).1.length = 2 ∧
        (runBatch okStubTransport (genCodes "100000" 0 2 ticket).1 emptyFS).1 =
          ⟨2, 2, 0, 0⟩ ∧
        ∀ c ∈ (genCodes "100000" 0 2 ticket).1,
          (runBatch okStubTransport (genCodes "100000" 0 2 ticket).1 emptyFS).2
              ("./" ++ c ++ ".png") = some pngSig) := by
  refine ⟨fun transport codes fs => runBatch_counts transport codes fs, ?_⟩
  intro ticket htick
  have ht0 := htick 0
  have ht1 := htick 1
  have hfd : ∀ c ∈ ("100000" : String).data, c.isDigit = true := by decide
  have hgen : genCodes "100000" 0 2 ticket =
      ([mkCode "100000" 0 (ticket 0), mkCode "100000" 1 (ticket 1)], none) := by
    unfold genCodes
    rw [genLoop_ok "100000" ticket 0 2 0 (by omega)]
    rfl
  have hl1 : (mkCode "100000" 0 (ticket 0)).length = 14 :=
    mkCode_length rfl (by omega) (by omega)
  have hl2 : (mkCode "100000" 1 (ticket 1)).length = 14 :=
    mkCode_length rfl (by omega) (by omega)
  have hpd1 : pyIsDigit (mkCode "100000" 0 (ticket 0)) = true :=
    mkCode_pyIsDigit rfl hfd (by omega) (by omega)
  have hpd2 : pyIsDigit (mkCode "100000" 1 (ticket 1)) = true :=
    mkCode_pyIsDigit rfl hfd (by omega) (by omega)
  have hcne : mkCode "100000" 0 (ticket 0) ≠ mkCode "100000" 1 (ticket 1) :=
    mkCode_ne rfl (by omega) (by omega) (by omega)
  have hrun := runBatch_two_fresh (mkCode "100000" 0 (ticket 0))
    (mkCode "100000" 1 (ticket 1)) emptyFS hpd1 hpd2 rfl rfl hcne hl1 hl2
  rw [hgen]
  refine ⟨rfl, rfl, hrun.1, ?_⟩
  intro c hc
  rcases List.mem_cons.mp hc with h | h
  · subst h; exact hrun.2.1
  · have hceq : c = mkCode "100000" 1 (ticket 1) := by simpa using h
    subst hceq
    exact hrun.2.2

/-- Witness for C9 with the constant ticket draw 116. -/
theorem batch_counts_and_end_to_end_witness :
    (runBatch okStubTransport (genCodes "100000" 0 2 (fun _ => 116)).1 emptyFS).1 =
      ⟨2, 2, 0, 0⟩ ∧
    (runBatch okStubTransport [] emptyFS).1.total = 0 := by
  have h := batch_counts_and_end_to_end.2 (fun _ => 116)
    (fun i => ⟨(by decide : (116 : Nat) ≤ 116), (by decide : (116 : Nat) ≤ 951)⟩)
  exact ⟨h.2.2.1, (batch_counts_and_end_to_end.1 okStubTransport [] emptyFS).1⟩
